import Mathlib

/-!
# Verification of the `uv-hotkey` hotkey registry (`src/uv-hotkey.py`)

Shallow embedding of the `HotkeyManager` / `HotkeyItem` core of the
hotkey-tray application, together with proofs of the specification's
testable properties.

Modelling conventions:
* Python dicts with string keys are association lists
  (`List (String × Value)`); `dict.__setitem__` is `dictSet`
  (replace-in-place or append, preserving insertion order, exactly as
  CPython does) and `dict.update` is `dictUpdate` (a left fold of
  `dictSet` over the right operand).
* Python exceptions are the `PyExn` type; code that can raise returns
  `Except PyExn α`, and a `try/except` block is a `match` on that value
  whose `.error` arm re-raises unless the exception class is caught.
* External effects (file system, the `keyboard` hook library,
  `subprocess.Popen`) are oracles: a `Bool`/function parameter says
  whether the call succeeds, and the call's observable outcome is
  recorded in the state or in an `Event` trace.
* `os.path.basename` is modelled with POSIX semantics (the suffix after
  the last `/`).
-/

set_option autoImplicit false

/-- Python exception classes that the code in `uv-hotkey.py` can
raise: `IOError`, `json.JSONDecodeError`, `UnicodeDecodeError` (from
`json.load` on byte-corrupt content; a `ValueError` but NOT a
`JSONDecodeError`), `AttributeError` (from `.get` on a non-dict),
`TypeError` (from `os.path.basename`/iteration/`len` on a value of the
wrong type), and a catch-all for any other `Exception` (e.g. one
raised by `keyboard.add_hotkey`). -/
inductive PyExn where
  | ioError
  | jsonDecodeError
  | unicodeDecodeError
  | attributeError
  | typeError
  | otherExn
  deriving DecidableEq, Repr

/-- Does `except IOError` catch this exception? -/
def PyExn.caughtByIOError : PyExn → Bool
  | .ioError => true
  | _ => false

/-- Does `except (json.JSONDecodeError, IOError)` catch this exception? -/
def PyExn.caughtByDecodeOrIOError : PyExn → Bool
  | .ioError => true
  | .jsonDecodeError => true
  | _ => false

/-- Does `except Exception` catch this exception?  All modelled
exception classes derive from `Exception`, so always. -/
def PyExn.caughtByException : PyExn → Bool
  | _ => true

/-- A Python `dict` with string keys, as an insertion-ordered
association list. -/
abbrev EnvMap := List (String × String)

/-- `d[k] = v` on a Python dict: replace the first (for a real dict,
only) binding of `k` in place, or append `(k, v)` at the end. -/
def dictSet {α : Type} (d : List (String × α)) (k : String) (v : α) :
    List (String × α) :=
  match d with
  | [] => [(k, v)]
  | p :: rest => if p.1 == k then (k, v) :: rest else p :: dictSet rest k v

/-- `d.update(e)` on Python dicts: set every binding of `e` into `d`,
in `e`'s iteration order. -/
def dictUpdate {α : Type} (d e : List (String × α)) : List (String × α) :=
  e.foldl (fun acc p => dictSet acc p.1 p.2) d

/-- `os.path.basename` (POSIX form): everything after the last `/`. -/
def basename (p : String) : String :=
  String.mk ((p.data.reverse.takeWhile (fun c => c ≠ '/')).reverse)

/-- One hotkey binding (`HotkeyItem` in the source). -/
structure HotkeyItem where
  hotkey : String
  script_path : String
  name : String
  env_vars : EnvMap
  deriving DecidableEq, Repr

/-- `HotkeyItem.__init__`: `name` defaults to
`os.path.basename(script_path)` when falsy (and to `""` when
`script_path` is also falsy); `env_vars` defaults to `{}` when `None`. -/
def HotkeyItem.init (hotkey script_path name : String)
    (env_vars : Option EnvMap) : HotkeyItem :=
  { hotkey := hotkey
    script_path := script_path
    name := if name = "" then
              (if script_path = "" then "" else basename script_path)
            else name
    env_vars := env_vars.getD [] }

/-- A persisted JSON object for one binding; each field may be absent
from the object. -/
structure ItemData where
  hotkey : Option String
  script_path : Option String
  name : Option String
  env_vars : Option EnvMap
  deriving DecidableEq, Repr

/-- `HotkeyItem.to_dict`. -/
def HotkeyItem.to_dict (it : HotkeyItem) : ItemData :=
  { hotkey := some it.hotkey
    script_path := some it.script_path
    name := some it.name
    env_vars := some it.env_vars }

/-- `HotkeyItem.from_dict`: `data.get(field, default)` for each field,
then the constructor. -/
def HotkeyItem.from_dict (d : ItemData) : HotkeyItem :=
  HotkeyItem.init (d.hotkey.getD "") (d.script_path.getD "")
    (d.name.getD "") (some (d.env_vars.getD []))

/-- The persisted top-level JSON object
`{"hotkeys": [...], "global_env_vars": {...}}`; each key may be absent. -/
structure ConfigData where
  hotkeys : Option (List ItemData)
  global_env_vars : Option EnvMap
  deriving DecidableEq, Repr

/-- The well-shaped states of the config file on disk: missing, a
JSON-syntax error, or a parse of exactly the expected shape — in
particular, everything `save_config` can ever produce.  A real file
can also hold undecodable bytes or valid JSON of a different shape;
`RawFile` below covers those, and `load_config_py_refines` proves the
well-shaped load below is the restriction of the faithful one. -/
inductive FileState where
  /-- `CONFIG_FILE.exists()` is false. -/
  | missing
  /-- The file exists but `json.load` raises `JSONDecodeError`. -/
  | malformed
  /-- The file exists and parses to `c`. -/
  | content (c : ConfigData)
  deriving DecidableEq, Repr

/-- Observable events emitted by the manager's operations. -/
inductive Event where
  /-- `save_config` successfully wrote `c` to the config file. -/
  | save (c : ConfigData)
  /-- `register_all_hotkeys` ran (unhook-all plus re-registration). -/
  | registerAll
  /-- `subprocess.Popen(cmd, env=env, ...)` spawned a process. -/
  | spawn (cmd : List String) (env : EnvMap)
  deriving DecidableEq, Repr

/-- The full state of a `HotkeyManager` together with the pieces of the
outside world it owns: the config file (`disk`) and the set of
OS-level hooks currently installed by the `keyboard` library
(`osHooks`, in installation order, duplicates possible). -/
structure ManagerState where
  hotkeys : List HotkeyItem
  global_env_vars : EnvMap
  /-- `self.active_hotkeys`: dict from hotkey string to the callback's
  captured item. -/
  active_hotkeys : List (String × HotkeyItem)
  osHooks : List String
  disk : FileState
  deriving DecidableEq, Repr

/-- `open(CONFIG_FILE) ; json.load(f)` restricted to the well-shaped
disk states: raises `IOError` when the read fails (`readOk = false`),
`JSONDecodeError` when the content is not JSON; otherwise returns the
parsed config.  `raw_json_load` below is the unrestricted version,
which can also raise `UnicodeDecodeError` on byte-corrupt content. -/
def json_load_file (readOk : Bool) (fs : FileState) : Except PyExn ConfigData :=
  if readOk then
    match fs with
    | .missing => .error .ioError
    | .malformed => .error .jsonDecodeError
    | .content c => .ok c
  else .error .ioError

/-- `HotkeyManager.load_config` (lines 300-313), restricted to the
well-shaped disk states: if the file exists, try to parse it, catching
`(json.JSONDecodeError, IOError)` by falling back to the empty state;
if it does not exist, start fresh.  On raw contents outside
`FileState` — undecodable bytes or valid JSON of the wrong shape — the
real method raises uncaught; `load_config_py` below models that full
behaviour, and `load_config_py_refines` proves this definition is its
restriction. -/
def load_config (readOk : Bool) (s : ManagerState) : Except PyExn ManagerState :=
  match s.disk with
  | .missing =>
      .ok { s with hotkeys := [], global_env_vars := [] }
  | fs =>
      match json_load_file readOk fs with
      | .ok data =>
          .ok { s with
                hotkeys := (data.hotkeys.getD []).map HotkeyItem.from_dict,
                global_env_vars := data.global_env_vars.getD [] }
      | .error e =>
          if e.caughtByDecodeOrIOError then
            .ok { s with hotkeys := [], global_env_vars := [] }
          else .error e

/-- The config object `save_config` writes:
`{"hotkeys": [item.to_dict() ...], "global_env_vars": ...}`. -/
def serializeConfig (s : ManagerState) : ConfigData :=
  { hotkeys := some (s.hotkeys.map HotkeyItem.to_dict)
    global_env_vars := some s.global_env_vars }

/-- `open(CONFIG_FILE, 'w') ; json.dump(...)`: raises `IOError` when
the write fails. -/
def file_write (writeOk : Bool) : Except PyExn Unit :=
  if writeOk then .ok () else .error .ioError

/-- `HotkeyManager.save_config` (lines 315-322): write the serialized
state, catching `IOError` (logged; the file is modelled as unchanged
on failure). -/
def save_config (writeOk : Bool) (s : ManagerState) :
    Except PyExn (ManagerState × List Event) :=
  match file_write writeOk with
  | .ok _ =>
      .ok ({ s with disk := .content (serializeConfig s) },
           [.save (serializeConfig s)])
  | .error e =>
      if e.caughtByIOError then .ok (s, []) else .error e

/-- `keyboard.add_hotkey(item.hotkey, callback, suppress=False)`: the
oracle `hookOk` says whether the OS accepts the registration; a refusal
is an `Exception`. -/
def keyboard_add_hotkey (hookOk : HotkeyItem → Bool) (item : HotkeyItem) :
    Except PyExn Unit :=
  if hookOk item then .ok () else .error .otherExn

/-- The `for item in self.hotkeys` loop of `register_all_hotkeys`:
skips items with falsy `hotkey` or `script_path`; tries
`keyboard.add_hotkey`, and on success records the OS hook, sets
`active_hotkeys[item.hotkey]` and increments `count`; a per-item
`except Exception` only logs and continues. -/
def register_loop (hookOk : HotkeyItem → Bool)
    (active : List (String × HotkeyItem)) (osHooks : List String)
    (count : Nat) : List HotkeyItem →
    List (String × HotkeyItem) × List String × Nat
  | [] => (active, osHooks, count)
  | item :: rest =>
      if item.hotkey ≠ "" ∧ item.script_path ≠ "" then
        match keyboard_add_hotkey hookOk item with
        | .ok _ =>
            register_loop hookOk (dictSet active item.hotkey item)
              (osHooks ++ [item.hotkey]) (count + 1) rest
        | .error _ => register_loop hookOk active osHooks count rest
      else register_loop hookOk active osHooks count rest

/-- `HotkeyManager.register_all_hotkeys` (lines 324-339):
`keyboard.unhook_all()` (drop every installed OS hook),
`self.active_hotkeys.clear()`, then the registration loop.  The final
`count` (logged as "Registered {count} hotkeys.") is returned as the
observable report. -/
def register_all_hotkeys (hookOk : HotkeyItem → Bool) (s : ManagerState) :
    Except PyExn (ManagerState × Nat) :=
  let r := register_loop hookOk [] [] 0 s.hotkeys
  .ok ({ s with active_hotkeys := r.1, osHooks := r.2.1 }, r.2.2)

/-- The effective environment computed by `run_script` (lines 352-354):
`env = os.environ.copy(); env.update(self.global_env_vars);
env.update(hotkey_item.env_vars)`. -/
def runScriptEnv (procEnv : EnvMap) (s : ManagerState) (item : HotkeyItem) :
    EnvMap :=
  dictUpdate (dictUpdate procEnv s.global_env_vars) item.env_vars

/-- `open(log_filename, 'w')`: raises `IOError` when opening the
per-run log file fails. -/
def open_log (openOk : Bool) : Except PyExn Unit :=
  if openOk then .ok () else .error .ioError

/-- `subprocess.Popen(...)`: raises when spawning fails. -/
def popen_spawn (popenOk : Bool) : Except PyExn Unit :=
  if popenOk then .ok () else .error .otherExn

/-- The `try:` body of `run_script` (lines 350-365): open the log file,
compute the layered environment, spawn
`["uv", "run", "--script", script_path]`, then
`keyboard.unhook_all()` followed by `register_all_hotkeys()` (the
unhook is subsumed by `register_all_hotkeys`, which unhooks first). -/
def run_script_try (openOk popenOk : Bool) (hookOk : HotkeyItem → Bool)
    (procEnv : EnvMap) (s : ManagerState) (item : HotkeyItem) :
    Except PyExn (ManagerState × List Event) := do
  let _ ← open_log openOk
  let env := runScriptEnv procEnv s item
  let _ ← popen_spawn popenOk
  let r ← register_all_hotkeys hookOk s
  .ok (r.1, [.spawn ["uv", "run", "--script", item.script_path] env,
             .registerAll])

/-- `HotkeyManager.run_script` (lines 341-367), the launch path: if the
script file does not exist, log and return (no spawn, state
untouched); otherwise run the try-body, catching any `Exception`
(logged, no further effect). -/
def run_script (fileExists : String → Bool) (openOk popenOk : Bool)
    (hookOk : HotkeyItem → Bool) (procEnv : EnvMap) (s : ManagerState)
    (item : HotkeyItem) : Except PyExn (ManagerState × List Event) :=
  if fileExists item.script_path then
    match run_script_try openOk popenOk hookOk procEnv s item with
    | .ok r => .ok r
    | .error e => if e.caughtByException then .ok (s, []) else .error e
  else .ok (s, [])

/-- The `self.save_config(); self.register_all_hotkeys()` tail shared
verbatim by every mutating method of `HotkeyManager`
(lines 372-373, 379-380, 387-388, 402-403). -/
def save_and_register (writeOk : Bool) (hookOk : HotkeyItem → Bool)
    (s : ManagerState) : Except PyExn (ManagerState × List Event) := do
  let (s2, tr) ← save_config writeOk s
  let r ← register_all_hotkeys hookOk s2
  .ok (r.1, tr ++ [.registerAll])

/-- `HotkeyManager.add_hotkey` (lines 369-373): append, save,
re-register. -/
def add_hotkey (writeOk : Bool) (hookOk : HotkeyItem → Bool)
    (s : ManagerState) (item : HotkeyItem) :
    Except PyExn (ManagerState × List Event) :=
  save_and_register writeOk hookOk { s with hotkeys := s.hotkeys ++ [item] }

/-- `HotkeyManager.update_hotkey` (lines 375-380): replace in place,
save, re-register — only when `0 <= index < len(self.hotkeys)`. -/
def update_hotkey (writeOk : Bool) (hookOk : HotkeyItem → Bool)
    (s : ManagerState) (index : Int) (item : HotkeyItem) :
    Except PyExn (ManagerState × List Event) :=
  if 0 ≤ index ∧ index < (s.hotkeys.length : Int) then
    save_and_register writeOk hookOk
      { s with hotkeys := s.hotkeys.set index.toNat item }
  else .ok (s, [])

/-- `HotkeyManager.remove_hotkey` (lines 382-388): delete at `index`,
save, re-register — only when `0 <= index < len(self.hotkeys)`. -/
def remove_hotkey (writeOk : Bool) (hookOk : HotkeyItem → Bool)
    (s : ManagerState) (index : Int) :
    Except PyExn (ManagerState × List Event) :=
  if 0 ≤ index ∧ index < (s.hotkeys.length : Int) then
    save_and_register writeOk hookOk
      { s with hotkeys := s.hotkeys.eraseIdx index.toNat }
  else .ok (s, [])

/-- `HotkeyManager.duplicate_hotkey` (lines 390-405): build a copy via
the `HotkeyItem` constructor with name `f"{original.name} (Copy)"` and
`env_vars=original.env_vars.copy()` (in this pure model the copy is
the same value; `duplicate_hotkey_heap` below models the aliasing),
append it, save, re-register, and return `len(self.hotkeys) - 1`;
out of bounds, return `-1`. -/
def duplicate_hotkey (writeOk : Bool) (hookOk : HotkeyItem → Bool)
    (s : ManagerState) (index : Int) :
    Except PyExn (ManagerState × Int × List Event) :=
  if h : 0 ≤ index ∧ index < (s.hotkeys.length : Int) then
    let original := s.hotkeys.get ⟨index.toNat, by omega⟩
    let dup := HotkeyItem.init original.hotkey original.script_path
      (original.name ++ " (Copy)") (some original.env_vars)
    match save_and_register writeOk hookOk
        { s with hotkeys := s.hotkeys ++ [dup] } with
    | .ok (s', tr) => .ok (s', ((s'.hotkeys.length - 1 : Nat) : Int), tr)
    | .error e => .error e
  else .ok (s, -1, [])

/-- `HotkeyManager.set_global_env_vars` (lines 407-410): replace the
global mapping wholesale and save (no re-registration). -/
def set_global_env_vars (writeOk : Bool) (s : ManagerState)
    (env_vars : EnvMap) : Except PyExn (ManagerState × List Event) :=
  save_config writeOk { s with global_env_vars := env_vars }

/-- A binding in the heap-explicit model: `env_vars` is a reference
(`envRef`) into a store of dicts, so that the aliasing behaviour of
`original.env_vars.copy()` in `duplicate_hotkey` is expressible. -/
structure HeapItem where
  hotkey : String
  script_path : String
  name : String
  envRef : Nat
  deriving DecidableEq, Repr

/-- `HotkeyItem.__init__` for the heap-explicit model (same name
defaulting as `HotkeyItem.init`). -/
def HeapItem.init (hotkey script_path name : String) (envRef : Nat) :
    HeapItem :=
  { hotkey := hotkey
    script_path := script_path
    name := if name = "" then
              (if script_path = "" then "" else basename script_path)
            else name
    envRef := envRef }

/-- Registry slice of the heap-explicit model: the binding list plus
the store of env dicts (a reference is an index into `heap`). -/
structure HeapRegistry where
  items : List HeapItem
  heap : List EnvMap
  deriving DecidableEq, Repr

/-- Dereference an env dict. -/
def heapGet (h : List EnvMap) (r : Nat) : EnvMap := h.getD r []

/-- `d[k] = v` through a reference: mutate the dict stored at `r`. -/
def heapSetVar (h : List EnvMap) (r : Nat) (k v : String) : List EnvMap :=
  h.set r (dictSet (heapGet h r) k v)

/-- `duplicate_hotkey` (lines 390-405) in the heap-explicit model:
`original.env_vars.copy()` allocates a fresh dict with the same
contents, and the copy is built by the constructor with name
`f"{original.name} (Copy)"`.  Persistence and re-registration are
modelled by `duplicate_hotkey` above and elided here. -/
def duplicate_hotkey_heap (rg : HeapRegistry) (index : Int) :
    HeapRegistry × Int :=
  if h : 0 ≤ index ∧ index < (rg.items.length : Int) then
    let original := rg.items.get ⟨index.toNat, by omega⟩
    let copied := heapGet rg.heap original.envRef
    let dup := HeapItem.init original.hotkey original.script_path
      (original.name ++ " (Copy)") rg.heap.length
    ({ items := rg.items ++ [dup], heap := rg.heap ++ [copied] },
     (rg.items.length : Int))
  else (rg, -1)

/-- The registry operations of the public surface, with binding
arguments given as the raw constructor inputs (the GUI always builds
items through the `HotkeyItem` constructor before handing them to the
manager). -/
inductive RegOp where
  | add (hotkey script_path name : String) (env : Option EnvMap)
  | update (index : Int) (hotkey script_path name : String) (env : Option EnvMap)
  | remove (index : Int)
  | duplicate (index : Int)
  | setGlobal (env : EnvMap)

/-- Dispatch one registry operation. -/
def applyOp (writeOk : Bool) (hookOk : HotkeyItem → Bool)
    (s : ManagerState) : RegOp → Except PyExn (ManagerState × List Event)
  | .add h sp n e => add_hotkey writeOk hookOk s (HotkeyItem.init h sp n e)
  | .update i h sp n e =>
      update_hotkey writeOk hookOk s i (HotkeyItem.init h sp n e)
  | .remove i => remove_hotkey writeOk hookOk s i
  | .duplicate i =>
      match duplicate_hotkey writeOk hookOk s i with
      | .ok (s', _, tr) => .ok (s', tr)
      | .error e => .error e
  | .setGlobal env => set_global_env_vars writeOk s env

/-- Run a sequence of registry operations. -/
def runOps (writeOk : Bool) (hookOk : HotkeyItem → Bool) :
    List RegOp → ManagerState → Except PyExn ManagerState
  | [], s => .ok s
  | op :: rest, s =>
      match applyOp writeOk hookOk s op with
      | .ok (s', _) => runOps writeOk hookOk rest s'
      | .error e => .error e

/-- Spec-side predicate (§8 of the spec): a binding is installed by
`registerAll` exactly when `hotkey` and `scriptPath` are both
non-empty and the OS accepts the hook. -/
def installable (hookOk : HotkeyItem → Bool) (i : HotkeyItem) : Bool :=
  (i.hotkey != "") && (i.script_path != "") && hookOk i

/-- Spec-side: the sublist of bindings `registerAll` installs. -/
def registeredBindings (hookOk : HotkeyItem → Bool)
    (hs : List HotkeyItem) : List HotkeyItem :=
  hs.filter (installable hookOk)

/-! ## Dictionary lemmas -/

theorem lookup_dictSet {α : Type} (d : List (String × α)) (k : String)
    (v : α) (k' : String) :
    List.lookup k' (dictSet d k v) =
      if k' = k then some v else List.lookup k' d := by
  induction d with
  | nil =>
      by_cases h : k' = k
      · subst h; simp [dictSet]
      · simp [dictSet, List.lookup_cons, beq_eq_false_iff_ne.mpr h, h]
  | cons p rest ih =>
      obtain ⟨pk, pv⟩ := p
      by_cases h1 : pk = k
      · subst h1
        by_cases h2 : k' = pk
        · subst h2; simp [dictSet, List.lookup_cons]
        · simp [dictSet, List.lookup_cons, beq_eq_false_iff_ne.mpr h2, h2]
      · have hb : (pk == k) = false := beq_eq_false_iff_ne.mpr h1
        by_cases h3 : k' = pk
        · subst h3
          simp [dictSet, hb, List.lookup_cons, ih, h1]
        · simp [dictSet, hb, List.lookup_cons,
                beq_eq_false_iff_ne.mpr h3, ih]

theorem lookup_eq_none_of_not_mem_keys {α : Type} {k : String}
    {l : List (String × α)} (h : k ∉ l.map Prod.fst) :
    List.lookup k l = none := by
  induction l with
  | nil => simp
  | cons p rest ih =>
      obtain ⟨pk, pv⟩ := p
      simp only [List.map_cons, List.mem_cons, not_or] at h
      have hb : (k == pk) = false := beq_eq_false_iff_ne.mpr h.1
      rw [List.lookup_cons, hb]
      exact ih h.2

theorem lookup_dictUpdate {α : Type} (d e : List (String × α))
    (he : (e.map Prod.fst).Nodup) (k : String) :
    List.lookup k (dictUpdate d e) =
      match List.lookup k e with
      | some v => some v
      | none => List.lookup k d := by
  induction e generalizing d with
  | nil => simp [dictUpdate]
  | cons p rest ih =>
      obtain ⟨pk, pv⟩ := p
      simp only [List.map_cons, List.nodup_cons] at he
      have step : dictUpdate d ((pk, pv) :: rest) =
          dictUpdate (dictSet d pk pv) rest := rfl
      rw [step, ih _ he.2]
      by_cases h : k = pk
      · have h0 : List.lookup k rest = none := by
          rw [h]; exact lookup_eq_none_of_not_mem_keys he.1
        have hb : (k == pk) = true := beq_iff_eq.mpr h
        rw [h0, List.lookup_cons, hb]
        simp [lookup_dictSet, h]
      · have hb : (k == pk) = false := beq_eq_false_iff_ne.mpr h
        rw [List.lookup_cons, hb]
        cases hlk : List.lookup k rest <;>
          simp [hlk, lookup_dictSet, h]

/-! ## Serialization round-trip infrastructure -/

/-- An item is serialization-stable: `from_dict(to_dict(it)) == it`.
Every item the manager ever stores has this property, because every
stored item was built by the `HotkeyItem` constructor (directly or via
`from_dict`), and the constructor's name-defaulting is idempotent. -/
def WFItem (it : HotkeyItem) : Prop :=
  HotkeyItem.from_dict it.to_dict = it

theorem wfItem_init (h sp n : String) (e : Option EnvMap) :
    WFItem (HotkeyItem.init h sp n e) := by
  unfold WFItem HotkeyItem.from_dict HotkeyItem.to_dict HotkeyItem.init
  by_cases hn : n = ""
  · by_cases hsp : sp = ""
    · simp [hn, hsp]
    · by_cases hb : basename sp = "" <;> simp [hn, hsp, hb]
  · simp [hn]

theorem wfItem_from_dict (d : ItemData) : WFItem (HotkeyItem.from_dict d) :=
  wfItem_init _ _ _ _

/-- A manager state is consistent when reloading the persisted file
reproduces it exactly. -/
def Good (s : ManagerState) : Prop := load_config true s = .ok s

theorem good_items {s : ManagerState} (h : Good s) :
    ∀ it ∈ s.hotkeys, WFItem it := by
  unfold Good at h
  cases hd : s.disk with
  | missing =>
      simp [load_config, hd] at h
      have hh : s.hotkeys = [] := by
        have := congrArg ManagerState.hotkeys h
        simpa using this.symm
      simp [hh]
  | malformed =>
      simp [load_config, hd, json_load_file, PyExn.caughtByDecodeOrIOError] at h
      have hh : s.hotkeys = [] := by
        have := congrArg ManagerState.hotkeys h
        simpa using this.symm
      simp [hh]
  | content c =>
      simp [load_config, hd, json_load_file] at h
      have hh : s.hotkeys = (c.hotkeys.getD []).map HotkeyItem.from_dict := by
        have := congrArg ManagerState.hotkeys h
        simpa using this.symm
      intro it hit
      rw [hh] at hit
      obtain ⟨d, _, rfl⟩ := List.mem_map.mp hit
      exact wfItem_from_dict d

theorem good_of_wf {s : ManagerState}
    (hw : ∀ it ∈ s.hotkeys, WFItem it)
    (hd : s.disk = .content (serializeConfig s)) :
    Good s := by
  have hmap : (s.hotkeys.map HotkeyItem.to_dict).map HotkeyItem.from_dict
      = s.hotkeys := by
    rw [List.map_map]
    have h1 : s.hotkeys.map (HotkeyItem.from_dict ∘ HotkeyItem.to_dict)
        = s.hotkeys.map id := List.map_congr_left (fun a ha => hw a ha)
    simpa using h1
  unfold Good
  obtain ⟨hks, ge, ah, oh, dk⟩ := s
  simp only [serializeConfig] at hd
  simp [load_config, hd, json_load_file, serializeConfig, hmap]

/-! ## Registration closed form -/

theorem register_loop_eq (hookOk : HotkeyItem → Bool)
    (hs : List HotkeyItem) (act : List (String × HotkeyItem))
    (os : List String) (c : Nat) :
    register_loop hookOk act os c hs =
      ((registeredBindings hookOk hs).foldl
          (fun a i => dictSet a i.hotkey i) act,
       os ++ (registeredBindings hookOk hs).map HotkeyItem.hotkey,
       c + (registeredBindings hookOk hs).length) := by
  induction hs generalizing act os c with
  | nil => simp [register_loop, registeredBindings]
  | cons i rest ih =>
      by_cases h1 : i.hotkey = "" <;> by_cases h2 : i.script_path = "" <;>
        by_cases h3 : hookOk i <;>
        simp [register_loop, registeredBindings, List.filter_cons, installable,
              keyboard_add_hotkey, h1, h2, h3, ih, List.append_assoc] <;>
        omega

theorem register_all_spec (hookOk : HotkeyItem → Bool) (s : ManagerState) :
    register_all_hotkeys hookOk s =
      .ok ({ s with
             active_hotkeys := (registeredBindings hookOk s.hotkeys).foldl
               (fun a i => dictSet a i.hotkey i) [],
             osHooks := (registeredBindings hookOk s.hotkeys).map
               HotkeyItem.hotkey },
           (registeredBindings hookOk s.hotkeys).length) := by
  simp [register_all_hotkeys, register_loop_eq]

theorem save_and_register_eq (hookOk : HotkeyItem → Bool) (s : ManagerState) :
    save_and_register true hookOk s =
      .ok ({ s with
             disk := .content (serializeConfig s),
             active_hotkeys := (registeredBindings hookOk s.hotkeys).foldl
               (fun a i => dictSet a i.hotkey i) [],
             osHooks := (registeredBindings hookOk s.hotkeys).map
               HotkeyItem.hotkey },
           [.save (serializeConfig s), .registerAll]) := by
  simp [save_and_register, save_config, file_write, register_all_spec,
        bind, Except.bind]

theorem good_save_and_register {s₁ : ManagerState}
    (hw : ∀ it ∈ s₁.hotkeys, WFItem it) (hookOk : HotkeyItem → Bool)
    {s' : ManagerState} {tr : List Event}
    (h : save_and_register true hookOk s₁ = .ok (s', tr)) : Good s' := by
  rw [save_and_register_eq hookOk s₁] at h
  simp only [Except.ok.injEq, Prod.mk.injEq] at h
  obtain ⟨hs', -⟩ := h
  subst hs'
  exact good_of_wf (by simpa using hw) rfl

theorem applyOp_good {s s' : ManagerState} {tr : List Event}
    {hookOk : HotkeyItem → Bool} {op : RegOp} (hg : Good s)
    (h : applyOp true hookOk s op = .ok (s', tr)) : Good s' := by
  cases op with
  | add hk sp n e =>
      refine good_save_and_register ?_ hookOk h
      intro it hit
      rcases List.mem_append.mp hit with hmem | hone
      · exact good_items hg it hmem
      · rw [List.mem_singleton.mp hone]
        exact wfItem_init _ _ _ _
  | update i hk sp n e =>
      simp only [applyOp] at h
      unfold update_hotkey at h
      split at h
      · refine good_save_and_register ?_ hookOk h
        intro it hit
        rcases List.mem_or_eq_of_mem_set hit with hmem | rfl
        · exact good_items hg it hmem
        · exact wfItem_init _ _ _ _
      · simp only [Except.ok.injEq, Prod.mk.injEq] at h
        obtain ⟨hs', -⟩ := h
        exact hs' ▸ hg
  | remove i =>
      simp only [applyOp] at h
      unfold remove_hotkey at h
      split at h
      · refine good_save_and_register ?_ hookOk h
        intro it hit
        exact good_items hg it (List.mem_of_mem_eraseIdx hit)
      · simp only [Except.ok.injEq, Prod.mk.injEq] at h
        obtain ⟨hs', -⟩ := h
        exact hs' ▸ hg
  | duplicate i =>
      simp only [applyOp] at h
      cases hdup : duplicate_hotkey true hookOk s i with
      | error e => rw [hdup] at h; exact absurd h (by simp)
      | ok r =>
          obtain ⟨rs, ridx, rtr⟩ := r
          rw [hdup] at h
          simp only [Except.ok.injEq, Prod.mk.injEq] at h
          obtain ⟨hrs, -⟩ := h
          unfold duplicate_hotkey at hdup
          split at hdup
          · dsimp only [] at hdup
            split at hdup
            · rename_i s2 tr2 heq
              simp only [Except.ok.injEq, Prod.mk.injEq] at hdup
              obtain ⟨hs2, -, -⟩ := hdup
              subst hrs
              rw [← hs2]
              refine good_save_and_register ?_ hookOk heq
              intro it hit
              rcases List.mem_append.mp hit with hmem | hone
              · exact good_items hg it hmem
              · rw [List.mem_singleton.mp hone]
                exact wfItem_init _ _ _ _
            · exact absurd hdup (by simp)
          · simp only [Except.ok.injEq, Prod.mk.injEq] at hdup
            obtain ⟨hs2, -⟩ := hdup
            subst hrs
            rw [← hs2]
            exact hg
  | setGlobal env =>
      simp only [applyOp] at h
      unfold set_global_env_vars at h
      have hsv : save_config true { s with global_env_vars := env } =
          .ok ({ s with
                 global_env_vars := env
                 disk := .content (serializeConfig
                   { s with global_env_vars := env }) },
               [.save (serializeConfig { s with global_env_vars := env })]) :=
        rfl
      rw [hsv] at h
      simp only [Except.ok.injEq, Prod.mk.injEq] at h
      obtain ⟨hs', -⟩ := h
      subst hs'
      exact good_of_wf (fun it hit => good_items hg it hit) rfl

theorem runOps_good (hookOk : HotkeyItem → Bool) (ops : List RegOp)
    {s s' : ManagerState} (hg : Good s)
    (h : runOps true hookOk ops s = .ok s') : Good s' := by
  induction ops generalizing s with
  | nil =>
      simp only [runOps, Except.ok.injEq] at h
      exact h ▸ hg
  | cons op rest ih =>
      simp only [runOps] at h
      cases hap : applyOp true hookOk s op with
      | error e => rw [hap] at h; exact absurd h (by simp)
      | ok r =>
          obtain ⟨s1, tr⟩ := r
          rw [hap] at h
          exact ih (applyOp_good hg hap) h

theorem copy_name_ne_empty (x : String) : x ++ " (Copy)" ≠ "" := by
  intro h
  have hlen := congrArg String.length h
  have h7 : (" (Copy)" : String).length = 7 := rfl
  rw [String.length_append, h7] at hlen
  simp at hlen

/-- Startup establishes consistency: whatever the file holds, the state
produced by `load_config` reloads to itself. -/
theorem good_after_load {s s₁ : ManagerState}
    (h : load_config true s = .ok s₁) : Good s₁ := by
  unfold Good
  cases hd : s.disk with
  | missing =>
      simp [load_config, hd] at h
      rw [← h]
      simp [load_config, hd]
  | malformed =>
      simp [load_config, hd, json_load_file, PyExn.caughtByDecodeOrIOError] at h
      rw [← h]
      simp [load_config, hd, json_load_file, PyExn.caughtByDecodeOrIOError]
  | content c =>
      simp [load_config, hd, json_load_file] at h
      rw [← h]
      simp [load_config, hd, json_load_file]

/-- `save_and_register` when the config write fails: the `IOError` is
caught, the file stays as it was, registration still runs. -/
theorem save_and_register_eq_false (hookOk : HotkeyItem → Bool)
    (s : ManagerState) :
    save_and_register false hookOk s =
      .ok ({ s with
             active_hotkeys := (registeredBindings hookOk s.hotkeys).foldl
               (fun a i => dictSet a i.hotkey i) []
             osHooks := (registeredBindings hookOk s.hotkeys).map
               HotkeyItem.hotkey },
           [.registerAll]) := by
  simp [save_and_register, save_config, file_write, PyExn.caughtByIOError,
        register_all_spec, bind, Except.bind]

/-! ## Concrete sample data (used by the witnesses) -/

def sampleItem : HotkeyItem :=
  { hotkey := "ctrl+alt+t", script_path := "/s.py", name := "T", env_vars := [] }

def sampleEmpty : ManagerState :=
  { hotkeys := [], global_env_vars := [], active_hotkeys := []
    osHooks := [], disk := .missing }

def sampleOne : ManagerState :=
  { hotkeys := [sampleItem], global_env_vars := [], active_hotkeys := []
    osHooks := [], disk := .missing }

def alwaysOk : HotkeyItem → Bool := fun _ => true

def neverExists : String → Bool := fun _ => false

def c1_ops : List RegOp :=
  [.add "ctrl+alt+t" "/s.py" "T" none, .setGlobal [("A", "1")], .duplicate 0]

def c1_final : ManagerState :=
  { hotkeys := [{ hotkey := "ctrl+alt+t", script_path := "/s.py"
                  name := "T", env_vars := [] },
                { hotkey := "ctrl+alt+t", script_path := "/s.py"
                  name := "T (Copy)", env_vars := [] }]
    global_env_vars := [("A", "1")]
    active_hotkeys := [("ctrl+alt+t",
      { hotkey := "ctrl+alt+t", script_path := "/s.py"
        name := "T (Copy)", env_vars := [] })]
    osHooks := ["ctrl+alt+t", "ctrl+alt+t"]
    disk := .content
      { hotkeys := some
          [{ hotkey := some "ctrl+alt+t", script_path := some "/s.py"
             name := some "T", env_vars := some [] },
           { hotkey := some "ctrl+alt+t", script_path := some "/s.py"
             name := some "T (Copy)", env_vars := some [] }]
        global_env_vars := some [("A", "1")] } }

/-! ## The raw load path: arbitrary file contents, dynamic extraction

`FileState`/`ConfigData` above describe only the well-shaped disk
states.  A real config file can also hold undecodable bytes or valid
JSON of a different shape.  This section models `load_config` over
those raw states: `json.load` can additionally raise
`UnicodeDecodeError`, and the field extraction of lines 305-307 is
evaluated with Python's dynamic semantics — `x.get` on a non-dict
raises `AttributeError`, and `os.path.basename`/iteration/`len` on a
value of the wrong type raise `TypeError`.  None of these are caught
by `except (json.JSONDecodeError, IOError)`, so they escape
`load_config`.  `load_config_py_refines` proves the well-shaped model
above is exactly the restriction of this one. -/

/-- A parsed JSON value (numbers as integers — no numeric operation in
the load path inspects them beyond truthiness). -/
inductive Json where
  | null
  | bool (b : Bool)
  | num (n : Int)
  | str (s : String)
  | arr (elems : List Json)
  | obj (fields : List (String × Json))

/-- Python truthiness of a JSON-representable value. -/
def Json.truthy : Json → Bool
  | .null => false
  | .bool b => b
  | .num n => n != 0
  | .str s => s != ""
  | .arr xs => !xs.isEmpty
  | .obj fields => !fields.isEmpty

/-- `x.get(k, dflt)`: only dicts have a `.get` attribute; any other
value raises `AttributeError`. -/
def Json.get (j : Json) (k : String) (dflt : Json) : Except PyExn Json :=
  match j with
  | .obj fields => .ok ((List.lookup k fields).getD dflt)
  | _ => .error .attributeError

/-- `for x in j`: lists yield their elements, strings their
1-character substrings, dicts their keys; other values raise
`TypeError` (not iterable). -/
def Json.iter : Json → Except PyExn (List Json)
  | .arr xs => .ok xs
  | .str s => .ok (s.data.map (fun ch => .str (String.mk [ch])))
  | .obj fields => .ok (fields.map (fun p => .str p.1))
  | _ => .error .typeError

/-- `len(j)`: defined for strings, lists and dicts; other values raise
`TypeError` (no len()). -/
def Json.pyLen : Json → Except PyExn Nat
  | .str s => .ok s.length
  | .arr xs => .ok xs.length
  | .obj fields => .ok fields.length
  | _ => .error .typeError

/-- `os.path.basename(x)`: defined for strings (and paths); any other
value raises `TypeError`. -/
def py_basename : Json → Except PyExn Json
  | .str s => .ok (.str (basename s))
  | _ => .error .typeError

/-- A `HotkeyItem` as built from arbitrary parsed JSON: the Python
constructor stores whatever values were extracted, so the fields are
JSON values, not necessarily strings. -/
structure PyHotkeyItem where
  hotkey : Json
  script_path : Json
  name : Json
  env_vars : Json

/-- `HotkeyItem.__init__` over arbitrary values:
`name or (os.path.basename(script_path) if script_path else "")` —
truthiness is total, but `basename` of a truthy non-string raises
`TypeError`; `env_vars if env_vars is not None else {}`. -/
def PyHotkeyItem.init (hotkey script_path name env_vars : Json) :
    Except PyExn PyHotkeyItem := do
  let name2 ←
    if name.truthy then pure name
    else if script_path.truthy then py_basename script_path
    else pure (Json.str "")
  pure { hotkey := hotkey
         script_path := script_path
         name := name2
         env_vars := match env_vars with
                     | .null => .obj []
                     | v => v }

/-- `HotkeyItem.from_dict` over arbitrary parsed JSON: each
`data.get(...)` raises `AttributeError` when `data` is not a dict. -/
def py_from_dict (data : Json) : Except PyExn PyHotkeyItem := do
  let hk ← data.get "hotkey" (.str "")
  let sp ← data.get "script_path" (.str "")
  let nm ← data.get "name" (.str "")
  let ev ← data.get "env_vars" (.obj [])
  PyHotkeyItem.init hk sp nm ev

/-- The raw states of the config file on disk: everything the bytes
can be. -/
inductive RawFile where
  /-- `CONFIG_FILE.exists()` is false. -/
  | missing
  /-- The bytes are not decodable text: `json.load` raises
  `UnicodeDecodeError`. -/
  | undecodable
  /-- Decodable text but not JSON: `json.load` raises
  `JSONDecodeError`. -/
  | malformed
  /-- `json.load` returns the value `j` (of any shape). -/
  | parsed (j : Json)

/-- `open(CONFIG_FILE) ; json.load(f)` over raw contents. -/
def raw_json_load (readOk : Bool) (f : RawFile) : Except PyExn Json :=
  if readOk then
    match f with
    | .missing => .error .ioError
    | .undecodable => .error .unicodeDecodeError
    | .malformed => .error .jsonDecodeError
    | .parsed j => .ok j
  else .error .ioError

/-- The body of `load_config`'s `try:` after `json.load` (lines
305-307): build the item list from `data.get("hotkeys", [])`, store
`data.get("global_env_vars", {})`, then the `logger.info` f-string
calls `len` on the stored global mapping. -/
def load_body_py (data : Json) : Except PyExn (List PyHotkeyItem × Json) := do
  let rawItems ← data.get "hotkeys" (.arr [])
  let xs ← rawItems.iter
  let hotkeys ← xs.mapM py_from_dict
  let globalEnv ← data.get "global_env_vars" (.obj [])
  let _ ← globalEnv.pyLen
  pure (hotkeys, globalEnv)

/-- `HotkeyManager.load_config` (lines 300-313) over raw file
contents: the `except (json.JSONDecodeError, IOError)` clause does NOT
catch `UnicodeDecodeError`, `AttributeError` or `TypeError`, which
escape to the caller. -/
def load_config_py (readOk : Bool) (f : RawFile) :
    Except PyExn (List PyHotkeyItem × Json) :=
  match f with
  | .missing => .ok ([], .obj [])
  | f =>
      match raw_json_load readOk f >>= load_body_py with
      | .ok r => .ok r
      | .error e =>
          if e.caughtByDecodeOrIOError then .ok ([], .obj [])
          else .error e

/-! ### The well-shaped model is the restriction of the raw one -/

/-- Encoding of an optional field of a persisted JSON object. -/
def optField (k : String) : Option Json → List (String × Json)
  | some v => [(k, v)]
  | none => []

/-- The JSON value of a string-to-string dict. -/
def envToJson (e : EnvMap) : Json :=
  .obj (e.map (fun p => (p.1, Json.str p.2)))

/-- The JSON object a well-shaped binding entry parses from. -/
def ItemData.toJson (d : ItemData) : Json :=
  .obj (optField "hotkey" (d.hotkey.map Json.str) ++
        optField "script_path" (d.script_path.map Json.str) ++
        optField "name" (d.name.map Json.str) ++
        optField "env_vars" (d.env_vars.map envToJson))

/-- The JSON object a well-shaped config file parses from. -/
def ConfigData.toJson (c : ConfigData) : Json :=
  .obj (optField "hotkeys"
          (c.hotkeys.map (fun l => Json.arr (l.map ItemData.toJson))) ++
        optField "global_env_vars" (c.global_env_vars.map envToJson))

/-- A well-shaped disk state as raw contents. -/
def FileState.toRaw : FileState → RawFile
  | .missing => .missing
  | .malformed => .malformed
  | .content c => .parsed c.toJson

/-- A typed in-memory binding as the dynamic model sees it. -/
def HotkeyItem.toPy (it : HotkeyItem) : PyHotkeyItem :=
  { hotkey := .str it.hotkey
    script_path := .str it.script_path
    name := .str it.name
    env_vars := envToJson it.env_vars }

theorem get_itemJson_hotkey (d : ItemData) (dflt : Json) :
    Json.get d.toJson "hotkey" dflt = .ok ((d.hotkey.map Json.str).getD dflt) := by
  obtain ⟨h, sp, n, e⟩ := d
  cases h <;> cases sp <;> cases n <;> cases e <;>
    simp +decide [ItemData.toJson, optField, Json.get, List.lookup_cons]

theorem get_itemJson_script_path (d : ItemData) (dflt : Json) :
    Json.get d.toJson "script_path" dflt =
      .ok ((d.script_path.map Json.str).getD dflt) := by
  obtain ⟨h, sp, n, e⟩ := d
  cases h <;> cases sp <;> cases n <;> cases e <;>
    simp +decide [ItemData.toJson, optField, Json.get, List.lookup_cons]

theorem get_itemJson_name (d : ItemData) (dflt : Json) :
    Json.get d.toJson "name" dflt = .ok ((d.name.map Json.str).getD dflt) := by
  obtain ⟨h, sp, n, e⟩ := d
  cases h <;> cases sp <;> cases n <;> cases e <;>
    simp +decide [ItemData.toJson, optField, Json.get, List.lookup_cons]

theorem get_itemJson_env_vars (d : ItemData) (dflt : Json) :
    Json.get d.toJson "env_vars" dflt =
      .ok ((d.env_vars.map envToJson).getD dflt) := by
  obtain ⟨h, sp, n, e⟩ := d
  cases h <;> cases sp <;> cases n <;> cases e <;>
    simp +decide [ItemData.toJson, optField, Json.get, List.lookup_cons]

theorem mapStr_getD (o : Option String) :
    (o.map Json.str).getD (.str "") = .str (o.getD "") := by
  cases o <;> rfl

theorem mapEnv_getD (o : Option EnvMap) :
    (o.map envToJson).getD (.obj []) = envToJson (o.getD []) := by
  cases o <;> rfl

theorem py_init_str (h sp n : String) (e : EnvMap) :
    PyHotkeyItem.init (.str h) (.str sp) (.str n) (envToJson e) =
      .ok ((HotkeyItem.init h sp n (some e)).toPy) := by
  unfold PyHotkeyItem.init HotkeyItem.init HotkeyItem.toPy
  by_cases hn : n = ""
  · by_cases hsp : sp = ""
    · simp [hn, hsp, Json.truthy, envToJson, bind, Except.bind, pure,
            Except.pure]
    · simp [hn, hsp, Json.truthy, py_basename, envToJson, bind,
            Except.bind, pure, Except.pure]
  · simp [hn, Json.truthy, envToJson, bind, Except.bind, pure, Except.pure]

theorem py_from_dict_toJson (d : ItemData) :
    py_from_dict d.toJson = .ok ((HotkeyItem.from_dict d).toPy) := by
  simp only [py_from_dict, bind, Except.bind, get_itemJson_hotkey,
             get_itemJson_script_path, get_itemJson_name,
             get_itemJson_env_vars, mapStr_getD, mapEnv_getD]
  exact py_init_str _ _ _ _

theorem mapM_loop_py_from_dict (L : List ItemData)
    (acc : List PyHotkeyItem) :
    List.mapM.loop py_from_dict (L.map ItemData.toJson) acc =
      .ok (acc.reverse ++ L.map (fun d => (HotkeyItem.from_dict d).toPy)) := by
  induction L generalizing acc with
  | nil => simp [List.mapM.loop, pure, Except.pure]
  | cons d rest ih =>
      simp [List.mapM.loop, py_from_dict_toJson, bind, Except.bind, ih]

theorem mapM_py_from_dict (L : List ItemData) :
    (L.map ItemData.toJson).mapM py_from_dict =
      .ok (L.map (fun d => (HotkeyItem.from_dict d).toPy)) := by
  simp [List.mapM, mapM_loop_py_from_dict]

theorem get_configJson_hotkeys (c : ConfigData) :
    Json.get c.toJson "hotkeys" (.arr []) =
      .ok (.arr ((c.hotkeys.getD []).map ItemData.toJson)) := by
  obtain ⟨hk, ge⟩ := c
  cases hk <;> cases ge <;>
    simp +decide [ConfigData.toJson, optField, Json.get, List.lookup_cons]

theorem get_configJson_global (c : ConfigData) :
    Json.get c.toJson "global_env_vars" (.obj []) =
      .ok (envToJson (c.global_env_vars.getD [])) := by
  obtain ⟨hk, ge⟩ := c
  cases hk <;> cases ge <;>
    simp +decide [ConfigData.toJson, optField, Json.get, List.lookup_cons,
                  envToJson]

/-- The well-shaped `load_config` is the restriction of the faithful
`load_config_py`: on every disk state in `FileState`, the raw dynamic
load succeeds and produces exactly the (embedded) state the
well-shaped load produces. -/
theorem load_config_py_refines (readOk : Bool) (s : ManagerState)
    {s2 : ManagerState} (h : load_config readOk s = .ok s2) :
    load_config_py readOk s.disk.toRaw =
      .ok (s2.hotkeys.map HotkeyItem.toPy, envToJson s2.global_env_vars) := by
  cases hd : s.disk with
  | missing =>
      simp [load_config, hd] at h
      rw [← h]
      simp [FileState.toRaw, load_config_py, envToJson]
  | malformed =>
      cases readOk <;>
        simp [load_config, hd, json_load_file,
              PyExn.caughtByDecodeOrIOError] at h <;>
        rw [← h] <;>
        simp [FileState.toRaw, load_config_py, raw_json_load, bind,
              Except.bind, PyExn.caughtByDecodeOrIOError, envToJson]
  | content c =>
      cases readOk with
      | false =>
          simp [load_config, hd, json_load_file,
                PyExn.caughtByDecodeOrIOError] at h
          rw [← h]
          simp [FileState.toRaw, load_config_py, raw_json_load, bind,
                Except.bind, PyExn.caughtByDecodeOrIOError, envToJson]
      | true =>
          simp [load_config, hd, json_load_file] at h
          rw [← h]
          have harr : Json.iter
              (.arr ((c.hotkeys.getD []).map ItemData.toJson)) =
              .ok ((c.hotkeys.getD []).map ItemData.toJson) := rfl
          simp [FileState.toRaw, load_config_py, raw_json_load, bind,
                Except.bind, load_body_py, get_configJson_hotkeys,
                get_configJson_global, harr, mapM_loop_py_from_dict,
                Json.pyLen, envToJson, pure, Except.pure,
                Function.comp]

/-! ## Claims -/

/-- C1: for every sequence of addBinding/updateBinding/removeBinding/
duplicateBinding/setGlobalEnv operations starting from any consistent
registry state (one that reloads to itself — which is every state the
app can be in: the startup state produced by `load_config` is
consistent by `good_after_load`), with every save succeeding, the
state after each operation again reloads to exactly itself: the
persisted binding list and global env map agree with the in-memory
ones. -/
theorem c1_round_trip_persistence (hookOk : HotkeyItem → Bool)
    (ops : List RegOp) {s0 s' : ManagerState}
    (h0 : load_config true s0 = .ok s0)
    (hrun : runOps true hookOk ops s0 = .ok s') :
    load_config true s' = .ok s' :=
  runOps_good hookOk ops h0 hrun

theorem c1_witness :
    load_config true sampleEmpty = .ok sampleEmpty ∧
    runOps true alwaysOk c1_ops sampleEmpty = .ok c1_final ∧
    load_config true c1_final = .ok c1_final :=
  ⟨rfl, rfl, @c1_round_trip_persistence alwaysOk c1_ops sampleEmpty c1_final
    rfl rfl⟩

/-- C2: `register_all_hotkeys` first drops every installed OS hook —
the resulting hook set does not depend on the previous `osHooks` /
`active_hotkeys` at all — then installs one hook per binding whose
`hotkey` and `script_path` are both non-empty and whose registration
the hook library accepts (`hookOk`); a refused registration skips only
that binding; the reported count is the number of successfully
installed hooks. -/
theorem c2_register_all (hookOk : HotkeyItem → Bool) (s : ManagerState) :
    register_all_hotkeys hookOk s =
      .ok ({ s with
             active_hotkeys := (registeredBindings hookOk s.hotkeys).foldl
               (fun a i => dictSet a i.hotkey i) []
             osHooks := (registeredBindings hookOk s.hotkeys).map
               HotkeyItem.hotkey },
           (registeredBindings hookOk s.hotkeys).length) :=
  register_all_spec hookOk s

/-- C5: `update_hotkey` and `remove_hotkey` with an out-of-range index
return without touching anything: the in-memory fields, the installed
hooks and the persisted file are exactly as before, and no
save/registration happens (empty event trace). -/
theorem c5_out_of_range_noop (writeOk : Bool) (hookOk : HotkeyItem → Bool)
    (s : ManagerState) (index : Int) (item : HotkeyItem)
    (h : ¬ (0 ≤ index ∧ index < (s.hotkeys.length : Int))) :
    update_hotkey writeOk hookOk s index item = .ok (s, []) ∧
    remove_hotkey writeOk hookOk s index = .ok (s, []) := by
  unfold update_hotkey remove_hotkey
  rw [if_neg h, if_neg h]
  exact ⟨rfl, rfl⟩

theorem c5_witness :
    ¬ ((0 : Int) ≤ 5 ∧ (5 : Int) < (sampleOne.hotkeys.length : Int)) ∧
    update_hotkey true alwaysOk sampleOne 5 sampleItem = .ok (sampleOne, []) ∧
    remove_hotkey true alwaysOk sampleOne 5 = .ok (sampleOne, []) :=
  ⟨by decide, c5_out_of_range_noop true alwaysOk sampleOne 5 sampleItem
    (by decide)⟩

/-- C6 is half right and half wrong of the program.  Right: a missing
file yields the empty binding list and empty global env map without an
error, and content that is not JSON at all (`JSONDecodeError`) is
caught the same way.  Wrong: "malformed persisted content ... yields
the same empty state without raising" fails for two whole families of
malformed content — byte-corrupt (undecodable) files make `json.load`
raise `UnicodeDecodeError`, and valid JSON of the wrong shape (here
the file parsing to `[1, 2, 3]`) makes `data.get` raise
`AttributeError`; neither is caught by
`except (json.JSONDecodeError, IOError)`, so both escape
`load_config` and crash the caller at startup. -/
theorem c6_load_crash_on_malformed :
    (∀ readOk, load_config_py readOk .missing = .ok ([], .obj [])) ∧
    load_config_py true .malformed = .ok ([], .obj []) ∧
    load_config_py true .undecodable = .error .unicodeDecodeError ∧
    load_config_py true (.parsed (.arr [.num 1, .num 2, .num 3])) =
      .error .attributeError :=
  ⟨fun _ => rfl, rfl, rfl, rfl⟩

/-- C7: launching a binding whose script file does not exist logs the
error and returns immediately: no process is spawned (the event trace
is empty), nothing is raised, and the manager state — binding list,
global env map, hooks and persisted file — is untouched. -/
theorem c7_missing_script (fileExists : String → Bool)
    (openOk popenOk : Bool) (hookOk : HotkeyItem → Bool)
    (procEnv : EnvMap) (s : ManagerState) (item : HotkeyItem)
    (h : fileExists item.script_path = false) :
    run_script fileExists openOk popenOk hookOk procEnv s item =
      .ok (s, []) := by
  simp [run_script, h]

theorem c7_witness :
    neverExists sampleItem.script_path = false ∧
    run_script neverExists true true alwaysOk [] sampleOne sampleItem =
      .ok (sampleOne, []) :=
  ⟨rfl, c7_missing_script neverExists true true alwaysOk [] sampleOne
    sampleItem rfl⟩

/-- C3: the environment `run_script` passes to `Popen` is the process
environment overlaid by the global env map overlaid by the binding's
env map: on any key, the binding-level value wins over the
global-level value, which wins over the process-level value.  (The
Nodup hypotheses state that the two dicts have unique keys, which
Python dicts guarantee.) -/
theorem c3_env_layering (procEnv : EnvMap) (s : ManagerState)
    (item : HotkeyItem) (k : String)
    (hg : (s.global_env_vars.map Prod.fst).Nodup)
    (hb : (item.env_vars.map Prod.fst).Nodup) :
    List.lookup k (runScriptEnv procEnv s item) =
      match List.lookup k item.env_vars with
      | some v => some v
      | none =>
          match List.lookup k s.global_env_vars with
          | some v => some v
          | none => List.lookup k procEnv := by
  unfold runScriptEnv
  rw [lookup_dictUpdate _ _ hb, lookup_dictUpdate _ _ hg]
  cases List.lookup k item.env_vars <;>
    cases List.lookup k s.global_env_vars <;> rfl

def c3_state : ManagerState :=
  { hotkeys := [], global_env_vars := [("A", "1")], active_hotkeys := []
    osHooks := [], disk := .missing }

def c3_item : HotkeyItem :=
  { hotkey := "ctrl+alt+t", script_path := "/s.py", name := "T"
    env_vars := [("A", "2"), ("B", "3")] }

theorem c3_witness :
    ((c3_state.global_env_vars.map Prod.fst).Nodup ∧
     (c3_item.env_vars.map Prod.fst).Nodup) ∧
    List.lookup "A" (runScriptEnv [("A", "0"), ("C", "9")] c3_state c3_item) =
      match List.lookup "A" c3_item.env_vars with
      | some v => some v
      | none =>
          match List.lookup "A" c3_state.global_env_vars with
          | some v => some v
          | none => List.lookup "A" [("A", "0"), ("C", "9")] :=
  ⟨⟨by decide, by decide⟩,
   c3_env_layering [("A", "0"), ("C", "9")] c3_state c3_item "A"
     (by decide) (by decide)⟩

/-- C8: every mutating operation persists the whole registry state and
only then re-derives the hook registrations — the event trace is
exactly `[save, registerAll]` in that order (never a `registerAll`
without a preceding `save`) — and immediately afterwards the persisted
file holds exactly the serialization of the in-memory state;
`set_global_env_vars` persists but performs no re-registration (its
trace is `[save]` alone). -/
theorem c8_save_then_register (hookOk : HotkeyItem → Bool)
    (s : ManagerState) (item : HotkeyItem) (i : Int) (env : EnvMap) :
    (∃ s', add_hotkey true hookOk s item =
        .ok (s', [.save (serializeConfig s'), .registerAll]) ∧
      s'.disk = .content (serializeConfig s')) ∧
    (0 ≤ i ∧ i < (s.hotkeys.length : Int) →
      ∃ s', update_hotkey true hookOk s i item =
          .ok (s', [.save (serializeConfig s'), .registerAll]) ∧
        s'.disk = .content (serializeConfig s')) ∧
    (0 ≤ i ∧ i < (s.hotkeys.length : Int) →
      ∃ s', remove_hotkey true hookOk s i =
          .ok (s', [.save (serializeConfig s'), .registerAll]) ∧
        s'.disk = .content (serializeConfig s')) ∧
    (0 ≤ i ∧ i < (s.hotkeys.length : Int) →
      ∃ s' r, duplicate_hotkey true hookOk s i =
          .ok (s', r, [.save (serializeConfig s'), .registerAll]) ∧
        s'.disk = .content (serializeConfig s')) ∧
    (∃ s', set_global_env_vars true s env =
        .ok (s', [.save (serializeConfig s')]) ∧
      s'.disk = .content (serializeConfig s') ∧
      Event.registerAll ∉ [Event.save (serializeConfig s')]) := by
  refine ⟨?_, ?_, ?_, ?_, ?_⟩
  · exact ⟨_, save_and_register_eq hookOk _, rfl⟩
  · intro hbnd
    unfold update_hotkey
    rw [if_pos hbnd]
    exact ⟨_, save_and_register_eq hookOk _, rfl⟩
  · intro hbnd
    unfold remove_hotkey
    rw [if_pos hbnd]
    exact ⟨_, save_and_register_eq hookOk _, rfl⟩
  · intro hbnd
    unfold duplicate_hotkey
    rw [dif_pos hbnd]
    dsimp only []
    rw [save_and_register_eq hookOk _]
    exact ⟨_, _, rfl, rfl⟩
  · unfold set_global_env_vars
    exact ⟨_, rfl, rfl, by simp⟩

theorem c8_witness :
    ((0 : Int) ≤ 0 ∧ (0 : Int) < (sampleOne.hotkeys.length : Int)) ∧
    (∃ s', update_hotkey true alwaysOk sampleOne 0 sampleItem =
        .ok (s', [.save (serializeConfig s'), .registerAll]) ∧
      s'.disk = .content (serializeConfig s')) ∧
    (∃ s', remove_hotkey true alwaysOk sampleOne 0 =
        .ok (s', [.save (serializeConfig s'), .registerAll]) ∧
      s'.disk = .content (serializeConfig s')) ∧
    (∃ s' r, duplicate_hotkey true alwaysOk sampleOne 0 =
        .ok (s', r, [.save (serializeConfig s'), .registerAll]) ∧
      s'.disk = .content (serializeConfig s')) :=
  ⟨by decide,
   (c8_save_then_register alwaysOk sampleOne sampleItem 0 []).2.1 (by decide),
   (c8_save_then_register alwaysOk sampleOne sampleItem 0 []).2.2.1
     (by decide),
   (c8_save_then_register alwaysOk sampleOne sampleItem 0 []).2.2.2.1
     (by decide)⟩

theorem save_and_register_isOk (writeOk : Bool) (hookOk : HotkeyItem → Bool)
    (s : ManagerState) :
    (save_and_register writeOk hookOk s).isOk = true := by
  cases writeOk
  · rw [save_and_register_eq_false]; rfl
  · rw [save_and_register_eq]; rfl

/-- C9 is false of the program: `load()` is on its public surface, and
on a config file whose contents parse to `{"hotkeys": [5]}` the
per-item `item.get` of `HotkeyItem.from_dict` raises `AttributeError`
(an `int` has no `.get`), which `except (json.JSONDecodeError,
IOError)` does not catch — the exception escapes `load_config`
uncaught instead of being logged and converted to a no-op. -/
theorem c9_load_uncaught :
    load_config_py true (.parsed (.obj [("hotkeys", .arr [.num 5])])) =
      .error .attributeError ∧
    (load_config_py true
      (.parsed (.obj [("hotkeys", .arr [.num 5])]))).isOk = false :=
  ⟨rfl, rfl⟩

/-- Complement to `c9_load_uncaught`, localizing the failure: over the
well-shaped disk states and every other oracle outcome (write
succeeding or failing, hook registrations accepted or refused, script
present or missing, log-open and spawn succeeding or failing), every
public entry point returns a value — only `load` on content outside
`FileState` can raise. -/
theorem well_shaped_no_uncaught (readOk writeOk openOk popenOk : Bool)
    (hookOk : HotkeyItem → Bool) (fileExists : String → Bool)
    (procEnv env : EnvMap) (s : ManagerState) (item : HotkeyItem)
    (i : Int) :
    (load_config readOk s).isOk = true ∧
    (add_hotkey writeOk hookOk s item).isOk = true ∧
    (update_hotkey writeOk hookOk s i item).isOk = true ∧
    (remove_hotkey writeOk hookOk s i).isOk = true ∧
    (duplicate_hotkey writeOk hookOk s i).isOk = true ∧
    (set_global_env_vars writeOk s env).isOk = true ∧
    (register_all_hotkeys hookOk s).isOk = true ∧
    (run_script fileExists openOk popenOk hookOk procEnv s item).isOk
      = true := by
  refine ⟨?_, ?_, ?_, ?_, ?_, ?_, ?_, ?_⟩
  · cases hd : s.disk <;> cases readOk <;>
      simp [load_config, hd, json_load_file, PyExn.caughtByDecodeOrIOError,
            Except.isOk, Except.toBool]
  · exact save_and_register_isOk writeOk hookOk _
  · unfold update_hotkey
    by_cases hbnd : 0 ≤ i ∧ i < (s.hotkeys.length : Int)
    · rw [if_pos hbnd]; exact save_and_register_isOk writeOk hookOk _
    · rw [if_neg hbnd]; rfl
  · unfold remove_hotkey
    by_cases hbnd : 0 ≤ i ∧ i < (s.hotkeys.length : Int)
    · rw [if_pos hbnd]; exact save_and_register_isOk writeOk hookOk _
    · rw [if_neg hbnd]; rfl
  · unfold duplicate_hotkey
    by_cases hbnd : 0 ≤ i ∧ i < (s.hotkeys.length : Int)
    · rw [dif_pos hbnd]
      dsimp only []
      cases writeOk
      · rw [save_and_register_eq_false]; rfl
      · rw [save_and_register_eq]; rfl
    · rw [dif_neg hbnd]; rfl
  · unfold set_global_env_vars
    cases writeOk <;> rfl
  · rw [register_all_spec]; rfl
  · cases hfe : fileExists item.script_path
    · simp [run_script, hfe, Except.isOk, Except.toBool]
    · cases openOk <;> cases popenOk <;>
        simp [run_script, hfe, run_script_try, open_log, popen_spawn,
              register_all_spec, bind, Except.bind, PyExn.caughtByException,
              Except.isOk, Except.toBool]

/-- C4: `duplicate_hotkey(i)` with `0 <= i < len` appends one binding
whose name is the original's name with `" (Copy)"` appended, whose
`hotkey`/`script_path` equal the original's and whose env map has the
same contents, and returns the index of the appended binding (the old
length); out of bounds it returns `-1` and appends nothing.  In the
heap-explicit model, the copy's env dict is a fresh reference with
equal contents, and mutating the copy's dict leaves the original's
dict untouched. -/
theorem c4_duplicate (hookOk : HotkeyItem → Bool) (s : ManagerState)
    (i : Int) (orig : HotkeyItem) :
    (0 ≤ i → s.hotkeys.get? i.toNat = some orig →
      ∃ s' tr, duplicate_hotkey true hookOk s i =
          .ok (s', (s.hotkeys.length : Int), tr) ∧
        s'.hotkeys = s.hotkeys ++
          [{ hotkey := orig.hotkey
             script_path := orig.script_path
             name := orig.name ++ " (Copy)"
             env_vars := orig.env_vars }]) ∧
    (∀ writeOk, ¬ (0 ≤ i ∧ i < (s.hotkeys.length : Int)) →
      duplicate_hotkey writeOk hookOk s i = .ok (s, -1, [])) ∧
    (∀ (rg : HeapRegistry) (j : Int) (origH : HeapItem),
      (∀ it ∈ rg.items, it.envRef < rg.heap.length) →
      0 ≤ j → rg.items.get? j.toNat = some origH →
      ∃ d : HeapItem,
        (duplicate_hotkey_heap rg j).1.items = rg.items ++ [d] ∧
        (duplicate_hotkey_heap rg j).2 = (rg.items.length : Int) ∧
        d.name = origH.name ++ " (Copy)" ∧
        d.hotkey = origH.hotkey ∧
        d.script_path = origH.script_path ∧
        d.envRef ≠ origH.envRef ∧
        heapGet (duplicate_hotkey_heap rg j).1.heap d.envRef =
          heapGet rg.heap origH.envRef ∧
        ∀ k v, heapGet (heapSetVar (duplicate_hotkey_heap rg j).1.heap
            d.envRef k v) origH.envRef =
          heapGet (duplicate_hotkey_heap rg j).1.heap origH.envRef) := by
  refine ⟨?_, ?_, ?_⟩
  · intro h0 horig
    obtain ⟨hlt, hget⟩ := List.get?_eq_some.mp horig
    have hb : 0 ≤ i ∧ i < (s.hotkeys.length : Int) := ⟨h0, by omega⟩
    unfold duplicate_hotkey
    rw [dif_pos hb]
    dsimp only []
    rw [hget, save_and_register_eq hookOk _]
    dsimp only []
    rw [show ((s.hotkeys ++ [HotkeyItem.init orig.hotkey orig.script_path
        (orig.name ++ " (Copy)") (some orig.env_vars)]).length - 1 : Nat)
        = s.hotkeys.length from by simp]
    refine ⟨_, _, rfl, ?_⟩
    simp [HotkeyItem.init, copy_name_ne_empty orig.name]
  · intro writeOk hnb
    unfold duplicate_hotkey
    rw [dif_neg hnb]
  · intro rg j origH hrefs h0j horigH
    obtain ⟨hlt, hget⟩ := List.get?_eq_some.mp horigH
    have hb : 0 ≤ j ∧ j < (rg.items.length : Int) := ⟨h0j, by omega⟩
    have hmem : origH ∈ rg.items := List.get?_mem horigH
    have hreflt : origH.envRef < rg.heap.length := hrefs _ hmem
    unfold duplicate_hotkey_heap
    rw [dif_pos hb]
    dsimp only []
    rw [hget]
    refine ⟨HeapItem.init origH.hotkey origH.script_path
      (origH.name ++ " (Copy)") rg.heap.length, rfl, rfl, ?_, rfl, rfl,
      ?_, ?_, ?_⟩
    · simp [HeapItem.init, copy_name_ne_empty origH.name]
    · simp only [HeapItem.init]
      omega
    · simp [HeapItem.init, heapGet, List.getElem?_concat_length]
    · intro k v
      have hne : rg.heap.length ≠ origH.envRef := by omega
      simp only [HeapItem.init, heapSetVar, heapGet,
                 List.getD_eq_getElem?_getD]
      rw [List.getElem?_set_ne hne]

def c4_hItem : HeapItem :=
  { hotkey := "ctrl+alt+t", script_path := "/s.py", name := "T", envRef := 0 }

def c4_heap : HeapRegistry :=
  { items := [c4_hItem], heap := [[("A", "1")]] }

theorem c4_witness :
    ((0 : Int) ≤ 0 ∧ sampleOne.hotkeys.get? (0 : Int).toNat = some sampleItem ∧
     ¬ (0 ≤ (5 : Int) ∧ (5 : Int) < (sampleOne.hotkeys.length : Int)) ∧
     (∀ it ∈ c4_heap.items, it.envRef < c4_heap.heap.length) ∧
     c4_heap.items.get? (0 : Int).toNat = some c4_hItem) ∧
    (∃ s' tr, duplicate_hotkey true alwaysOk sampleOne 0 =
        .ok (s', (sampleOne.hotkeys.length : Int), tr) ∧
      s'.hotkeys = sampleOne.hotkeys ++
        [{ hotkey := sampleItem.hotkey
           script_path := sampleItem.script_path
           name := sampleItem.name ++ " (Copy)"
           env_vars := sampleItem.env_vars }]) ∧
    duplicate_hotkey true alwaysOk sampleOne 5 = .ok (sampleOne, -1, []) ∧
    (∃ d : HeapItem,
      (duplicate_hotkey_heap c4_heap 0).1.items = c4_heap.items ++ [d] ∧
      (duplicate_hotkey_heap c4_heap 0).2 = (c4_heap.items.length : Int) ∧
      d.name = c4_hItem.name ++ " (Copy)" ∧
      d.hotkey = c4_hItem.hotkey ∧
      d.script_path = c4_hItem.script_path ∧
      d.envRef ≠ c4_hItem.envRef ∧
      heapGet (duplicate_hotkey_heap c4_heap 0).1.heap d.envRef =
        heapGet c4_heap.heap c4_hItem.envRef ∧
      ∀ k v, heapGet (heapSetVar (duplicate_hotkey_heap c4_heap 0).1.heap
          d.envRef k v) c4_hItem.envRef =
        heapGet (duplicate_hotkey_heap c4_heap 0).1.heap c4_hItem.envRef) :=
  ⟨⟨by decide, by decide, by decide, by decide, by decide⟩,
   (c4_duplicate alwaysOk sampleOne 0 sampleItem).1 (by decide) (by decide),
   (c4_duplicate alwaysOk sampleOne 5 sampleItem).2.1 true (by decide),
   (c4_duplicate alwaysOk sampleOne 0 sampleItem).2.2 c4_heap 0 c4_hItem
     (by decide) (by decide) (by decide)⟩

def c10_bad : ItemData :=
  { hotkey := none, script_path := some "a/", name := none, env_vars := none }

/-- C10 is refuted as stated: the persisted entry
`{"script_path": "a/"}` — a non-empty path ending in a separator —
loads without error, but `os.path.basename("a/")` is the empty string,
so the constructed binding has a non-empty `script_path` and an EMPTY
`name`, contradicting "every constructed binding with a non-empty
script_path has a non-empty name". -/
theorem c10_counterexample :
    (HotkeyItem.from_dict c10_bad).script_path = "a/" ∧
    (HotkeyItem.from_dict c10_bad).script_path ≠ "" ∧
    (HotkeyItem.from_dict c10_bad).name = "" := by decide

/-- C10 (amended): loading a persisted entry that omits any of the
four fields succeeds, the missing fields defaulting to `""` (empty map
for `env_vars`); when the stored name is empty and `script_path` is
non-empty the binding's name defaults to `basename(script_path)`; and
a constructed binding with a non-empty `script_path` has a non-empty
name PROVIDED the basename of its `script_path` is non-empty (i.e. the
path does not end in a separator). -/
theorem c10_load_defaults (d : ItemData) :
    (HotkeyItem.from_dict d).hotkey = d.hotkey.getD "" ∧
    (HotkeyItem.from_dict d).script_path = d.script_path.getD "" ∧
    (HotkeyItem.from_dict d).env_vars = d.env_vars.getD [] ∧
    (d.name.getD "" ≠ "" → (HotkeyItem.from_dict d).name = d.name.getD "") ∧
    (d.name.getD "" = "" → d.script_path.getD "" ≠ "" →
      (HotkeyItem.from_dict d).name = basename (d.script_path.getD "")) ∧
    ((HotkeyItem.from_dict d).script_path ≠ "" →
      basename ((HotkeyItem.from_dict d).script_path) ≠ "" →
      (HotkeyItem.from_dict d).name ≠ "") := by
  unfold HotkeyItem.from_dict HotkeyItem.init
  refine ⟨rfl, rfl, rfl, ?_, ?_, ?_⟩
  · intro hn
    simp [hn]
  · intro hn hsp
    simp [hn, hsp]
  · intro hsp hbase
    by_cases hn : d.name.getD "" = ""
    · simp only [hn, if_true, ite_true] at *
      simp only [if_neg hsp] at *
      exact hbase
    · simp [hn]

def c10_good : ItemData :=
  { hotkey := none, script_path := some "dir/run.py", name := none
    env_vars := none }

theorem c10_witness :
    ((HotkeyItem.from_dict c10_good).name =
      basename (c10_good.script_path.getD "")) ∧
    (HotkeyItem.from_dict c10_good).name ≠ "" :=
  ⟨(c10_load_defaults c10_good).2.2.2.2.1 (by decide) (by decide),
   (c10_load_defaults c10_good).2.2.2.2.2 (by decide) (by decide)⟩
